import Mathlib

/-!
# Verification of the pasteboard-mcp adapter and bridge

Shallow embedding of the two components of the repository:

* `src/swift/pbhelper.swift` — the native pasteboard adapter, a CLI that
  performs exactly one NSPasteboard operation per invocation. Each command
  is embedded as a pure function from (arguments, stdin bytes, pasteboard
  state) to a `CmdResult` (exit 0 with stdout, or exit 1 with a stderr
  message), carrying the resulting pasteboard state.
* `src/src/pasteboard.ts` — the process bridge. Its `checkResult` and the
  per-operation stdout decoding are embedded as pure functions of the
  adapter's `ExecResult` (stdout, stderr, exit code).

Foundation / AppKit primitives used by the adapter are modelled explicitly:
UTF-8 and base64 codecs are implemented over `List Nat` byte lists;
`NSBitmapImageRep` decoding/encoding is an opaque OS service and is passed
in as function parameters (`dec`, `enc`).
-/

/-! ## UTF-8 codec (model of `String(data:encoding:.utf8)` and `Data(text.utf8)`) -/

/-- UTF-8 encoding of a single unicode scalar value, 1–4 bytes. -/
def utf8EncodeChar (c : Char) : List Nat :=
  let v := c.toNat
  if v < 128 then [v]
  else if v < 2048 then [192 + v / 64, 128 + v % 64]
  else if v < 65536 then [224 + v / 4096, 128 + v / 64 % 64, 128 + v % 64]
  else [240 + v / 262144, 128 + v / 4096 % 64, 128 + v / 64 % 64, 128 + v % 64]

/-- UTF-8 encoding of a character list. -/
def utf8EncodeList : List Char → List Nat
  | [] => []
  | c :: cs => utf8EncodeChar c ++ utf8EncodeList cs

/-- The UTF-8 byte encoding of a string (model of Swift's `text.utf8`). -/
def utf8Encode (s : String) : List Nat := utf8EncodeList s.data

/-- A UTF-8 continuation byte. -/
abbrev contByte (b : Nat) : Prop := 128 ≤ b ∧ b < 192

/-- Decode one UTF-8 scalar value from the front of a byte list; on success
returns the scalar value and the number of bytes consumed (1–4). -/
def utf8DecodeHead (l : List Nat) : Option (Nat × Nat) :=
  let b0 := l.getD 0 0
  let b1 := l.getD 1 0
  let b2 := l.getD 2 0
  let b3 := l.getD 3 0
  if l.length = 0 then none
  else if b0 < 128 then some (b0, 1)
  else if b0 < 192 then none
  else if b0 < 224 then
    if 2 ≤ l.length ∧ contByte b1 then
      let v := (b0 - 192) * 64 + (b1 - 128)
      if 128 ≤ v then some (v, 2) else none
    else none
  else if b0 < 240 then
    if 3 ≤ l.length ∧ contByte b1 ∧ contByte b2 then
      let v := (b0 - 224) * 4096 + (b1 - 128) * 64 + (b2 - 128)
      if 2048 ≤ v then some (v, 3) else none
    else none
  else if b0 < 248 then
    if 4 ≤ l.length ∧ contByte b1 ∧ contByte b2 ∧ contByte b3 then
      let v := (b0 - 240) * 262144 + (b1 - 128) * 4096 + (b2 - 128) * 64 + (b3 - 128)
      if 65536 ≤ v ∧ v < 1114112 then some (v, 4) else none
    else none
  else none

/-- UTF-8 decoding loop; `fuel` bounds the number of scalars decoded and is
instantiated with the byte count (each scalar consumes at least one byte). -/
def utf8DecodeLoop : Nat → List Nat → Option (List Char)
  | _, [] => some []
  | 0, _ :: _ => none
  | fuel + 1, b :: t =>
    match utf8DecodeHead (b :: t) with
    | none => none
    | some (v, k) =>
      (utf8DecodeLoop fuel ((b :: t).drop k)).map (fun cs => Char.ofNat v :: cs)

/-- UTF-8 decoding of a byte list into characters; `none` on invalid input. -/
def utf8DecodeList (l : List Nat) : Option (List Char) :=
  utf8DecodeLoop l.length l

/-- Model of `String(data:encoding:.utf8)`: UTF-8 decoding of a byte list. -/
def utf8Decode (l : List Nat) : Option String :=
  (utf8DecodeList l).map (fun cs => String.mk cs)

theorem char_toNat_lt (c : Char) : c.toNat < 1114112 := by
  rcases c.valid with h | ⟨_, h⟩
  · exact Nat.lt_trans h (by decide)
  · exact h

theorem utf8EncodeChar_length_pos (c : Char) : 0 < (utf8EncodeChar c).length := by
  unfold utf8EncodeChar
  by_cases h1 : c.toNat < 128 <;> by_cases h2 : c.toNat < 2048 <;>
    by_cases h3 : c.toNat < 65536 <;> simp [h1, h2, h3]

theorem utf8DecodeHead_encodeChar (c : Char) (rest : List Nat) :
    utf8DecodeHead (utf8EncodeChar c ++ rest)
      = some (c.toNat, (utf8EncodeChar c).length) := by
  have hlt : c.toNat < 1114112 := char_toNat_lt c
  unfold utf8EncodeChar
  by_cases h1 : c.toNat < 128
  · rw [if_pos h1]
    unfold utf8DecodeHead
    simp only [List.cons_append, List.nil_append, List.getD_cons_zero,
      List.length_cons, List.length_append, List.length_nil]
    rw [if_neg (by omega), if_pos h1]
  · rw [if_neg h1]
    by_cases h2 : c.toNat < 2048
    · rw [if_pos h2]
      unfold utf8DecodeHead
      simp only [List.cons_append, List.nil_append, List.getD_cons_zero,
        List.getD_cons_succ, List.length_cons]
      rw [if_neg (by omega), if_neg (by omega), if_neg (by omega),
        if_pos (by omega),
        if_pos (show 2 ≤ rest.length + 1 + 1 ∧ contByte (128 + c.toNat % 64) by
          constructor
          · omega
          · exact ⟨by omega, by omega⟩),
        if_pos (show 128 ≤ (192 + c.toNat / 64 - 192) * 64 + (128 + c.toNat % 64 - 128) by
          omega)]
      have hv : (192 + c.toNat / 64 - 192) * 64 + (128 + c.toNat % 64 - 128)
          = c.toNat := by omega
      rw [hv]
      simp
    · rw [if_neg h2]
      by_cases h3 : c.toNat < 65536
      · rw [if_pos h3]
        unfold utf8DecodeHead
        simp only [List.cons_append, List.nil_append, List.getD_cons_zero,
          List.getD_cons_succ, List.length_cons]
        rw [if_neg (by omega), if_neg (by omega), if_neg (by omega),
          if_neg (by omega), if_pos (by omega),
          if_pos (show 3 ≤ rest.length + 1 + 1 + 1
              ∧ contByte (128 + c.toNat / 64 % 64) ∧ contByte (128 + c.toNat % 64) by
            exact ⟨by omega, ⟨by omega, by omega⟩, by omega, by omega⟩),
          if_pos (show 2048 ≤ (224 + c.toNat / 4096 - 224) * 4096
              + (128 + c.toNat / 64 % 64 - 128) * 64 + (128 + c.toNat % 64 - 128) by
            omega)]
        have hv : (224 + c.toNat / 4096 - 224) * 4096
            + (128 + c.toNat / 64 % 64 - 128) * 64 + (128 + c.toNat % 64 - 128)
            = c.toNat := by omega
        rw [hv]
        simp
      · rw [if_neg h3]
        unfold utf8DecodeHead
        simp only [List.cons_append, List.nil_append, List.getD_cons_zero,
          List.getD_cons_succ, List.length_cons]
        rw [if_neg (by omega), if_neg (by omega), if_neg (by omega),
          if_neg (by omega), if_neg (by omega), if_pos (by omega),
          if_pos (show 4 ≤ rest.length + 1 + 1 + 1 + 1
              ∧ contByte (128 + c.toNat / 4096 % 64) ∧ contByte (128 + c.toNat / 64 % 64)
              ∧ contByte (128 + c.toNat % 64) by
            exact ⟨by omega, ⟨by omega, by omega⟩, ⟨by omega, by omega⟩, by omega, by omega⟩),
          if_pos (show 65536 ≤ (240 + c.toNat / 262144 - 240) * 262144
                + (128 + c.toNat / 4096 % 64 - 128) * 4096
                + (128 + c.toNat / 64 % 64 - 128) * 64 + (128 + c.toNat % 64 - 128)
              ∧ (240 + c.toNat / 262144 - 240) * 262144
                + (128 + c.toNat / 4096 % 64 - 128) * 4096
                + (128 + c.toNat / 64 % 64 - 128) * 64 + (128 + c.toNat % 64 - 128)
                < 1114112 by omega)]
        have hv : (240 + c.toNat / 262144 - 240) * 262144
            + (128 + c.toNat / 4096 % 64 - 128) * 4096
            + (128 + c.toNat / 64 % 64 - 128) * 64 + (128 + c.toNat % 64 - 128)
            = c.toNat := by omega
        rw [hv]
        simp

theorem utf8DecodeLoop_encodeList (cs : List Char) (fuel : Nat)
    (hfuel : (utf8EncodeList cs).length ≤ fuel) :
    utf8DecodeLoop fuel (utf8EncodeList cs) = some cs := by
  induction cs generalizing fuel with
  | nil =>
    rw [utf8EncodeList]
    cases fuel <;> rfl
  | cons c cs ih =>
    have hpos := utf8EncodeChar_length_pos c
    obtain ⟨b, t, hbt⟩ : ∃ b t, utf8EncodeChar c = b :: t := by
      cases hc : utf8EncodeChar c with
      | nil => rw [hc] at hpos; simp at hpos
      | cons b t => exact ⟨b, t, rfl⟩
    rw [utf8EncodeList] at hfuel ⊢
    rw [hbt, List.cons_append] at hfuel ⊢
    obtain ⟨f, rfl⟩ : ∃ f, fuel = f + 1 := by
      cases fuel with
      | zero => simp at hfuel
      | succ f => exact ⟨f, rfl⟩
    rw [utf8DecodeLoop]
    rw [← List.cons_append, ← hbt, utf8DecodeHead_encodeChar]
    simp only [List.drop_left, Char.ofNat_toNat]
    rw [ih f (by
      simp only [List.length_cons, List.length_append] at hfuel
      omega)]
    rw [Option.map_some']

theorem utf8DecodeList_encodeList (cs : List Char) :
    utf8DecodeList (utf8EncodeList cs) = some cs :=
  utf8DecodeLoop_encodeList cs (utf8EncodeList cs).length (Nat.le_refl _)

theorem utf8Decode_encode (s : String) : utf8Decode (utf8Encode s) = some s := by
  rw [utf8Decode, utf8Encode, utf8DecodeList_encodeList, Option.map_some']

/-! ## Base64 codec (model of `Data(base64Encoded:)` / `base64EncodedString()`) -/

/-- Value of one base64 alphabet character. -/
def b64Val (c : Char) : Option Nat :=
  if 'A' ≤ c ∧ c ≤ 'Z' then some (c.toNat - 65)
  else if 'a' ≤ c ∧ c ≤ 'z' then some (c.toNat - 97 + 26)
  else if '0' ≤ c ∧ c ≤ '9' then some (c.toNat - 48 + 52)
  else if c = '+' then some 62
  else if c = '/' then some 63
  else none

/-- Decode base64 characters, four at a time, handling `=` padding. -/
def b64DecodeChars : List Char → Option (List Nat)
  | [] => some []
  | c0 :: c1 :: c2 :: c3 :: rest =>
    match b64Val c0, b64Val c1 with
    | some v0, some v1 =>
      if c2 = '=' ∧ c3 = '=' ∧ rest = [] then some [v0 * 4 + v1 / 16]
      else
        match b64Val c2 with
        | some v2 =>
          if c3 = '=' ∧ rest = [] then some [v0 * 4 + v1 / 16, v1 % 16 * 16 + v2 / 4]
          else
            match b64Val c3 with
            | some v3 =>
              (b64DecodeChars rest).map
                (fun ds => (v0 * 4 + v1 / 16) :: (v1 % 16 * 16 + v2 / 4) :: (v2 % 4 * 64 + v3) :: ds)
            | none => none
        | none => none
    | _, _ => none
  | _ => none

/-- Model of `Data(base64Encoded:)`: strict base64 decoding of a string. -/
def b64Decode (s : String) : Option (List Nat) := b64DecodeChars s.data

/-- One base64 alphabet character for a 6-bit value. -/
def b64Char (n : Nat) : Char :=
  if n < 26 then Char.ofNat (65 + n)
  else if n < 52 then Char.ofNat (97 + n - 26)
  else if n < 62 then Char.ofNat (48 + n - 52)
  else if n = 62 then '+'
  else '/'

/-- Encode bytes as base64 characters, three at a time, with `=` padding. -/
def b64EncodeBytes : List Nat → List Char
  | [] => []
  | [b0] => [b64Char (b0 / 4), b64Char (b0 % 4 * 16), '=', '=']
  | [b0, b1] => [b64Char (b0 / 4), b64Char (b0 % 4 * 16 + b1 / 16), b64Char (b1 % 16 * 4), '=']
  | b0 :: b1 :: b2 :: rest =>
    b64Char (b0 / 4) :: b64Char (b0 % 4 * 16 + b1 / 16) :: b64Char (b1 % 16 * 4 + b2 / 64)
      :: b64Char (b2 % 64) :: b64EncodeBytes rest

/-- Model of `Data.base64EncodedString()`. -/
def base64Encode (l : List Nat) : String := String.mk (b64EncodeBytes l)

/-! ## Whitespace trimming (model of `trimmingCharacters(in: .whitespacesAndNewlines)`
and of JavaScript's `String.prototype.trim`) -/

/-- Whitespace characters recognised by the trim operations. -/
def isWSChar (c : Char) : Bool := c == ' ' || c == '\t' || c == '\n' || c == '\r'

/-- Strip leading and trailing whitespace from a string. -/
def trimWS (s : String) : String :=
  String.mk (((s.data.dropWhile isWSChar).reverse.dropWhile isWSChar).reverse)

/-! ## Pasteboard data model (model of the NSPasteboard surface the adapter uses)

A pasteboard is a list of (type identifier, payload) representations. A
payload records whether it was set with `setString` or `setData`; reading
with `string(forType:)` converts a data payload to a string exactly when its
bytes are valid UTF-8, and `data(forType:)` returns a string payload's UTF-8
bytes, matching NSPasteboard's conversion behaviour observed by the tests. -/

/-- One pasteboard payload: set as a string or as raw data. -/
inductive PBValue where
  | str (s : String)
  | data (d : List Nat)
deriving DecidableEq

/-- A pasteboard's contents: representations keyed by type identifier. -/
abbrev Pasteboard := List (String × PBValue)

/-- `NSPasteboard.PasteboardType.string`. -/
def typeString : String := "public.utf8-plain-text"

/-- `NSPasteboard.PasteboardType.tiff`. -/
def typeTiff : String := "public.tiff"

/-- `NSPasteboard.PasteboardType.png`. -/
def typePng : String := "public.png"

/-- `NSPasteboard.clearContents()`: removes every representation. -/
def clearContents (_pb : Pasteboard) : Pasteboard := []

/-- `NSPasteboard.setString(_:forType:)` after a clear: adds a string payload. -/
def setString (pb : Pasteboard) (s : String) (ty : String) : Pasteboard :=
  pb ++ [(ty, PBValue.str s)]

/-- `NSPasteboard.setData(_:forType:)` after a clear: adds a data payload. -/
def setData (pb : Pasteboard) (d : List Nat) (ty : String) : Pasteboard :=
  pb ++ [(ty, PBValue.data d)]

/-- First payload stored under a type identifier, if any. -/
def findValue (pb : Pasteboard) (ty : String) : Option PBValue :=
  match pb.find? (fun e => e.1 == ty) with
  | some e => some e.2
  | none => none

/-- `NSPasteboard.string(forType:)`: the payload as a string, if representable. -/
def stringForType (pb : Pasteboard) (ty : String) : Option String :=
  match findValue pb ty with
  | some (PBValue.str s) => some s
  | some (PBValue.data d) => utf8Decode d
  | none => none

/-- `NSPasteboard.data(forType:)`: the payload's bytes, if the type is present. -/
def dataForType (pb : Pasteboard) (ty : String) : Option (List Nat) :=
  match findValue pb ty with
  | some (PBValue.str s) => some (utf8Encode s)
  | some (PBValue.data d) => some d
  | none => none

/-- `NSPasteboard.types`: the list of type identifiers present. -/
def typesOf (pb : Pasteboard) : List String := pb.map (fun e => e.1)

/-! ## Minimal JSON string-array codec (model of `JSONSerialization` output and
of the bridge's `JSON.parse` applied to `list-types` output) -/

/-- JSON escaping of one character (quote and backslash). -/
def jsonEscChar (c : Char) : List Char :=
  if c = '"' then ['\\', '"']
  else if c = '\\' then ['\\', '\\']
  else [c]

/-- Concatenation of a list of lists. -/
def listConcat : List (List Char) → List Char
  | [] => []
  | l :: ls => l ++ listConcat ls

/-- JSON serialization of a string array (model of `JSONSerialization.data`). -/
def jsonEncodeStrings (l : List String) : String :=
  "[" ++ String.intercalate ","
    (l.map (fun s => "\"" ++ String.mk (listConcat (s.data.map jsonEscChar)) ++ "\"")) ++ "]"

/-- Unescape value of a JSON escape character. -/
def jsonUnesc (c : Char) : Option Char :=
  if c = '"' then some '"'
  else if c = '\\' then some '\\'
  else if c = '/' then some '/'
  else if c = 'n' then some '\n'
  else if c = 't' then some '\t'
  else if c = 'r' then some '\r'
  else if c = 'b' then some (Char.ofNat 8)
  else if c = 'f' then some (Char.ofNat 12)
  else none

/-- Parse a JSON string body (after the opening quote); returns the string and
the remaining characters after the closing quote. -/
def parseJStringChars : List Char → Option (String × List Char)
  | [] => none
  | '"' :: rest => some ("", rest)
  | '\\' :: e :: rest =>
    match jsonUnesc e with
    | some c => (parseJStringChars rest).map (fun p => (String.mk (c :: p.1.data), p.2))
    | none => none
  | c :: rest => (parseJStringChars rest).map (fun p => (String.mk (c :: p.1.data), p.2))

/-- Drop leading JSON whitespace. -/
def skipWS (l : List Char) : List Char := l.dropWhile isWSChar

/-- Parse the comma-separated elements of a JSON string array, after the
opening bracket, up to and including the closing bracket. -/
def parseJElems : Nat → List Char → Option (List String × List Char)
  | 0, _ => none
  | fuel + 1, l =>
    match skipWS l with
    | '"' :: rest =>
      match parseJStringChars rest with
      | some (s, rest1) =>
        match skipWS rest1 with
        | ',' :: rest2 => (parseJElems fuel rest2).map (fun p => (s :: p.1, p.2))
        | ']' :: rest2 => some ([s], rest2)
        | _ => none
      | none => none
    | _ => none

/-- Model of `JSON.parse` restricted to arrays of strings, as produced by the
adapter's `list-types`. -/
def parseJsonStrings (s : String) : Option (List String) :=
  match skipWS s.data with
  | '[' :: rest =>
    match skipWS rest with
    | ']' :: rest1 => if skipWS rest1 = [] then some [] else none
    | _ =>
      match parseJElems (s.data.length + 1) rest with
      | some (l, rest1) => if skipWS rest1 = [] then some l else none
      | none => none
  | _ => none

/-! ## Images (abstract model of `NSBitmapImageRep`)

Decoding bytes into a bitmap and re-encoding a bitmap are OS services; the
adapter commands take them as parameters `dec : List Nat → Option Img`
(model of `NSBitmapImageRep(data:)`) and `enc : Img → FileType → Option (List Nat)`
(model of `representation(using:properties:)`). -/

/-- An abstract in-memory bitmap. -/
structure Img where
  pixels : Nat
deriving DecidableEq

/-- `NSBitmapImageRep.FileType` values the adapter uses. -/
inductive FileType where
  | tiff
  | png
deriving DecidableEq

/-! ## Adapter commands (model of `src/swift/pbhelper.swift`)

A command's observable outcome: `ok stdout pb` is exit code 0 with `stdout`
written to standard output; `err msg pb` is exit code 1 with `msg` written
to standard error (`exitError`). Both carry the pasteboard state at process
exit. -/

/-- Outcome of one adapter invocation. -/
inductive CmdResult where
  | ok (stdout : String) (pb : Pasteboard)
  | err (stderr : String) (pb : Pasteboard)
deriving DecidableEq

/-- Named pasteboards reachable through `getPasteboard`. -/
inductive PBName where
  | general
  | find
  | font
  | ruler
  | drag
  | custom (s : String)
deriving DecidableEq

/-- `getPasteboard(name:)`: resolve the optional `--pasteboard` value. -/
def getPasteboard (name : Option String) : PBName :=
  match name with
  | none => PBName.general
  | some n =>
    if n = "general" then PBName.general
    else if n = "find" then PBName.find
    else if n = "font" then PBName.font
    else if n = "ruler" then PBName.ruler
    else if n = "drag" then PBName.drag
    else PBName.custom n

/-- `cmdListTypes`: JSON-serialize the type identifiers (with `print`'s
trailing newline). -/
def cmdListTypes (pb : Pasteboard) : CmdResult :=
  CmdResult.ok (jsonEncodeStrings (typesOf pb) ++ "\n") pb

/-- `cmdReadText`: the plain-text representation, written without a trailing
newline; "No text on pasteboard" if absent. -/
def cmdReadText (pb : Pasteboard) : CmdResult :=
  match stringForType pb typeString with
  | none => CmdResult.err "No text on pasteboard" pb
  | some text => CmdResult.ok text pb

/-- `cmdWriteText`: require valid UTF-8 stdin, then clear and set the string. -/
def cmdWriteText (stdin : List Nat) (pb : Pasteboard) : CmdResult :=
  match utf8Decode stdin with
  | none => CmdResult.err "Invalid UTF-8 input" pb
  | some text => CmdResult.ok "" (setString (clearContents pb) text typeString)

/-- `cmdReadImage`: try the TIFF data, then the PNG data; re-encode the first
bitmap that decodes into the requested format and emit base64. -/
def cmdReadImage (dec : List Nat → Option Img) (enc : Img → FileType → Option (List Nat))
    (format : String) (pb : Pasteboard) : CmdResult :=
  let fromTiff :=
    match dataForType pb typeTiff with
    | some tiffData => dec tiffData
    | none => none
  let imageRep :=
    match fromTiff with
    | some rep => some rep
    | none =>
      match dataForType pb typePng with
      | some pngData => dec pngData
      | none => none
  match imageRep with
  | none => CmdResult.err "No image on pasteboard" pb
  | some rep =>
    let fileType := if format = "tiff" then FileType.tiff else FileType.png
    match enc rep fileType with
    | none => CmdResult.err ("Failed to convert image to " ++ format) pb
    | some outputData => CmdResult.ok (base64Encode outputData) pb

/-- `cmdWriteImage`: decode base64 stdin into a bitmap, clear, always set the
TIFF representation, and set a PNG representation when the format is "png". -/
def cmdWriteImage (dec : List Nat → Option Img) (enc : Img → FileType → Option (List Nat))
    (format : String) (stdin : List Nat) (pb : Pasteboard) : CmdResult :=
  match (utf8Decode stdin).map trimWS with
  | none => CmdResult.err "Invalid base64 image data" pb
  | some base64String =>
    match b64Decode base64String with
    | none => CmdResult.err "Invalid base64 image data" pb
    | some imageData =>
      match dec imageData with
      | none => CmdResult.err "Failed to decode image data" pb
      | some imageRep =>
        let pb1 := clearContents pb
        let pb2 :=
          match enc imageRep FileType.tiff with
          | some tiffData => setData pb1 tiffData typeTiff
          | none => pb1
        let pb3 :=
          if format = "png" then
            match enc imageRep FileType.png with
            | some pngData => setData pb2 pngData typePng
            | none => pb2
          else pb2
        CmdResult.ok "" pb3

/-- `cmdRead`: require `--type`; try `string(forType:)` first, else emit the
raw data base64-encoded; fail naming the type when neither is available. -/
def cmdRead (type : Option String) (pb : Pasteboard) : CmdResult :=
  match type with
  | none => CmdResult.err "--type is required for read command" pb
  | some typeStr =>
    match stringForType pb typeStr with
    | some str => CmdResult.ok str pb
    | none =>
      match dataForType pb typeStr with
      | none => CmdResult.err ("No data for type " ++ typeStr ++ " on pasteboard") pb
      | some d => CmdResult.ok (base64Encode d) pb

/-- `cmdWrite`: require `--type`; with `--base64` decode stdin as base64 and
set raw data, otherwise require UTF-8 stdin and set a string; clear first. -/
def cmdWrite (type : Option String) (isBase64 : Bool) (stdin : List Nat)
    (pb : Pasteboard) : CmdResult :=
  match type with
  | none => CmdResult.err "--type is required for write command" pb
  | some typeStr =>
    if isBase64 then
      match (utf8Decode stdin).map trimWS with
      | none => CmdResult.err "Invalid base64 data" pb
      | some base64String =>
        match b64Decode base64String with
        | none => CmdResult.err "Invalid base64 data" pb
        | some decoded => CmdResult.ok "" (setData (clearContents pb) decoded typeStr)
    else
      match utf8Decode stdin with
      | none => CmdResult.err "Invalid UTF-8 input" pb
      | some text => CmdResult.ok "" (setString (clearContents pb) text typeStr)

/-- `cmdClear`: unconditionally clear. -/
def cmdClear (pb : Pasteboard) : CmdResult :=
  CmdResult.ok "" (clearContents pb)

/-! ## Argument parsing and dispatch (model of `parseArgs` and `main`) -/

/-- Parsed command-line arguments (`struct Args`), with the source defaults
`pasteboard = nil`, `type = nil`, `format = "png"`, `isBase64 = false`. -/
structure Args where
  command : String
  pasteboard : Option String
  type : Option String
  format : String
  isBase64 : Bool
deriving DecidableEq

/-- The usage text printed by `printUsage` (to standard error). -/
def usageText : String :=
  "Usage: pbhelper <command> [options]\n\nCommands:\n"
    ++ "  list-types  [--pasteboard NAME]\n"
    ++ "  read-text   [--pasteboard NAME]\n"
    ++ "  write-text  [--pasteboard NAME]\n"
    ++ "  read-image  [--pasteboard NAME] [--format png|tiff]\n"
    ++ "  write-image [--pasteboard NAME] [--format png|tiff]\n"
    ++ "  read        --type UTI [--pasteboard NAME]\n"
    ++ "  write       --type UTI [--pasteboard NAME] [--base64]\n"
    ++ "  clear       [--pasteboard NAME]"

/-- The flag-processing loop of `parseArgs` (indices 2.. of argv). -/
def parseFlags : List String → Args → Except String Args
  | [], args => Except.ok args
  | "--pasteboard" :: rest, args =>
    match rest with
    | [] => Except.error "Missing value for --pasteboard"
    | v :: rest1 =>
      parseFlags rest1 (Args.mk args.command (some v) args.type args.format args.isBase64)
  | "--type" :: rest, args =>
    match rest with
    | [] => Except.error "Missing value for --type"
    | v :: rest1 =>
      parseFlags rest1 (Args.mk args.command args.pasteboard (some v) args.format args.isBase64)
  | "--format" :: rest, args =>
    match rest with
    | [] => Except.error "Missing value for --format"
    | v :: rest1 =>
      parseFlags rest1 (Args.mk args.command args.pasteboard args.type v args.isBase64)
  | "--base64" :: rest, args =>
    parseFlags rest (Args.mk args.command args.pasteboard args.type args.format true)
  | a :: _, _ => Except.error ("Unknown argument: " ++ a)

/-- `parseArgs()` over the full argv (element 0 is the program name); an
`Except.error` is an `exitError`/usage exit (exit code 1, message on stderr). -/
def parseArgs (argv : List String) : Except String Args :=
  match argv with
  | _ :: cmd :: flags => parseFlags flags (Args.mk cmd none none "png" false)
  | _ => Except.error usageText

/-- The named pasteboards of the OS, as a single store. -/
def Store := PBName → Pasteboard

/-- Point update of a store. -/
def updateStore (st : Store) (n : PBName) (pb : Pasteboard) : Store :=
  fun m => if m = n then pb else st m

/-- Pasteboard state carried by a command outcome. -/
def resultPB : CmdResult → Pasteboard
  | CmdResult.ok _ pb => pb
  | CmdResult.err _ pb => pb

/-- The adapter's top-level dispatch (`switch args.command` in main): resolve
the pasteboard, run the single command, and write the result back. -/
def runAdapter (dec : List Nat → Option Img) (enc : Img → FileType → Option (List Nat))
    (args : Args) (stdin : List Nat) (st : Store) : CmdResult × Store :=
  let name := getPasteboard args.pasteboard
  let pb := st name
  let r :=
    if args.command = "list-types" then cmdListTypes pb
    else if args.command = "read-text" then cmdReadText pb
    else if args.command = "write-text" then cmdWriteText stdin pb
    else if args.command = "read-image" then cmdReadImage dec enc args.format pb
    else if args.command = "write-image" then cmdWriteImage dec enc args.format stdin pb
    else if args.command = "read" then cmdRead args.type pb
    else if args.command = "write" then cmdWrite args.type args.isBase64 stdin pb
    else if args.command = "clear" then cmdClear pb
    else CmdResult.err usageText pb
  (r, updateStore st name (resultPB r))

/-! ## Process bridge (model of `src/src/pasteboard.ts`)

The spawn itself is IO; its observable outcome is an `ExecResult` (collected
stdout, collected stderr, exit code), which the bridge functions consume.
An `Except.error` models a rejected promise / thrown `Error`. -/

/-- Outcome of one spawned `pbhelper` process (`interface ExecResult`). -/
structure ExecResult where
  stdout : String
  stderr : String
  exitCode : Nat
deriving DecidableEq

/-- `pbArgs`: the optional `--pasteboard` argument pair. -/
def pbArgs (pasteboard : Option String) : List String :=
  match pasteboard with
  | some p => ["--pasteboard", p]
  | none => []

/-- `checkResult`: the error thrown for a nonzero exit code, if any. -/
def checkResult (result : ExecResult) : Option String :=
  if result.exitCode ≠ 0 then
    some
      (if trimWS result.stderr = "" then
        "pbhelper exited with code " ++ toString result.exitCode
      else trimWS result.stderr)
  else none

namespace Bridge

/-- `listTypes`: check the exit code, then JSON-parse stdout. -/
def listTypes (r : ExecResult) : Except String (List String) :=
  match checkResult r with
  | some msg => Except.error msg
  | none =>
    match parseJsonStrings r.stdout with
    | some l => Except.ok l
    | none => Except.error "JSON parse error"

/-- `readText`: check the exit code, then return stdout as text. -/
def readText (r : ExecResult) : Except String String :=
  match checkResult r with
  | some msg => Except.error msg
  | none => Except.ok r.stdout

/-- `writeText` (and the other write operations): check the exit code only. -/
def writeText (r : ExecResult) : Except String Unit :=
  match checkResult r with
  | some msg => Except.error msg
  | none => Except.ok ()

/-- `readImage`: check the exit code, then return stdout (base64, undecoded). -/
def readImage (r : ExecResult) : Except String String :=
  match checkResult r with
  | some msg => Except.error msg
  | none => Except.ok r.stdout

/-- `readData`: check the exit code, then return stdout. -/
def readData (r : ExecResult) : Except String String :=
  match checkResult r with
  | some msg => Except.error msg
  | none => Except.ok r.stdout

end Bridge

/-! ## Claims -/

/-- C2: for every UTF-8 string s (including the empty string, multi-line
strings, Unicode, and arbitrarily long strings) and every pasteboard,
write-text with payload s followed by read-text on the same pasteboard, with
no intervening operation, succeeds and returns exactly s, with no trailing
newline added. -/
theorem write_text_read_text_roundtrip (s : String) (pb : Pasteboard) :
    ∃ pb2, cmdWriteText (utf8Encode s) pb = CmdResult.ok "" pb2
      ∧ cmdReadText pb2 = CmdResult.ok s pb2 := by
  refine ⟨[(typeString, PBValue.str s)], ?_, ?_⟩
  · unfold cmdWriteText
    rw [utf8Decode_encode]
    simp [setString, clearContents]
  · unfold cmdReadText
    simp [stringForType, findValue, List.find?]

/-- C5: read-text fails with "No text on pasteboard" (exit 1, stderr) exactly
when the pasteboard has no plain-text string representation, succeeds with
that representation's string otherwise, and an empty-string success means an
empty string was on the pasteboard — absence is never signalled by success. -/
theorem read_text_absence_is_failure (pb : Pasteboard) :
    (cmdReadText pb = CmdResult.err "No text on pasteboard" pb
      ↔ stringForType pb typeString = none)
    ∧ (∀ s, cmdReadText pb = CmdResult.ok s pb ↔ stringForType pb typeString = some s)
    ∧ (cmdReadText pb = CmdResult.ok "" pb → stringForType pb typeString = some "") := by
  unfold cmdReadText
  cases h : stringForType pb typeString with
  | none => simp
  | some t => simp

/-- C5 witness: on a pasteboard holding the empty string, read-text succeeds
with the empty string, and that success implies an empty string was stored. -/
theorem read_text_absence_is_failure_witness :
    stringForType [(typeString, PBValue.str "")] typeString = some "" :=
  (read_text_absence_is_failure [(typeString, PBValue.str "")]).2.2 (by decide)

/-- C7: the typed read first attempts the payload as a string and emits it on
success; only if the string read fails does it fall back to the raw bytes
emitted base64-encoded; if both fail it exits 1 with a message naming the
type. -/
theorem typed_read_string_first_then_base64 (t : String) (pb : Pasteboard) :
    (∀ s, stringForType pb t = some s → cmdRead (some t) pb = CmdResult.ok s pb)
    ∧ (∀ d, stringForType pb t = none → dataForType pb t = some d →
      cmdRead (some t) pb = CmdResult.ok (base64Encode d) pb)
    ∧ (stringForType pb t = none → dataForType pb t = none →
      cmdRead (some t) pb = CmdResult.err ("No data for type " ++ t ++ " on pasteboard") pb) := by
  refine ⟨?_, ?_, ?_⟩
  · intro s hs
    unfold cmdRead
    simp only [hs]
  · intro d hs hd
    unfold cmdRead
    simp only [hs, hd]
  · intro hs hd
    unfold cmdRead
    simp only [hs, hd]

/-- C7 witness: a data payload that is not valid UTF-8 under a custom type is
read back base64-encoded. -/
theorem typed_read_string_first_then_base64_witness :
    cmdRead (some "com.test.custom") [("com.test.custom", PBValue.data [255])]
      = CmdResult.ok (base64Encode [255]) [("com.test.custom", PBValue.data [255])] :=
  (typed_read_string_first_then_base64 "com.test.custom"
    [("com.test.custom", PBValue.data [255])]).2.1 [255] (by decide) (by decide)

/-- C9: all validation failures of the write commands happen before the
pasteboard is cleared: whenever a write command exits nonzero, the pasteboard
it leaves behind is exactly the prior one. -/
theorem failed_write_preserves_pasteboard (stdin : List Nat) (pb : Pasteboard)
    (m : String) (pb2 : Pasteboard) :
    (cmdWriteText stdin pb = CmdResult.err m pb2 → pb2 = pb)
    ∧ (∀ dec enc fmt, cmdWriteImage dec enc fmt stdin pb = CmdResult.err m pb2 → pb2 = pb)
    ∧ (∀ ty b64, cmdWrite ty b64 stdin pb = CmdResult.err m pb2 → pb2 = pb) := by
  refine ⟨?_, ?_, ?_⟩
  · intro h
    unfold cmdWriteText at h
    split at h
    · injection h with h1 h2
      exact h2.symm
    · exact CmdResult.noConfusion h
  · intro dec enc fmt h
    unfold cmdWriteImage at h
    repeat' split at h
    all_goals
      first
      | exact CmdResult.noConfusion h
      | (injection h with h1 h2
         exact h2.symm)
  · intro ty b64 h
    unfold cmdWrite at h
    repeat' split at h
    all_goals
      first
      | exact CmdResult.noConfusion h
      | (injection h with h1 h2
         exact h2.symm)

/-- C9 witness: writing invalid UTF-8 to write-text fails and leaves the
prior pasteboard contents in place. -/
theorem failed_write_preserves_pasteboard_witness :
    [("x", PBValue.str "old")] = [("x", PBValue.str "old")] :=
  (failed_write_preserves_pasteboard [255] [("x", PBValue.str "old")]
    "Invalid UTF-8 input" [("x", PBValue.str "old")]).1 (by decide)

/-- C8: pasteboard resolution is total: an absent flag and "general" resolve
to the general pasteboard (and every adapter operation behaves identically
under the two), the four well-known names resolve to their pasteboards, and
every other string resolves to a custom-named pasteboard with no validation
or failure. -/
theorem pasteboard_resolution_total :
    getPasteboard none = PBName.general
    ∧ getPasteboard (some "general") = PBName.general
    ∧ getPasteboard (some "find") = PBName.find
    ∧ getPasteboard (some "font") = PBName.font
    ∧ getPasteboard (some "ruler") = PBName.ruler
    ∧ getPasteboard (some "drag") = PBName.drag
    ∧ (∀ s : String, s ≠ "general" → s ≠ "find" → s ≠ "font" → s ≠ "ruler" →
      s ≠ "drag" → getPasteboard (some s) = PBName.custom s)
    ∧ (∀ dec enc cmd ty fmt b64 stdin st,
      runAdapter dec enc (Args.mk cmd none ty fmt b64) stdin st
        = runAdapter dec enc (Args.mk cmd (some "general") ty fmt b64) stdin st) := by
  refine ⟨rfl, by decide, by decide, by decide, by decide, by decide, ?_, ?_⟩
  · intro s h1 h2 h3 h4 h5
    unfold getPasteboard
    simp only [if_neg h1, if_neg h2, if_neg h3, if_neg h4, if_neg h5]
  · intro dec enc cmd ty fmt b64 stdin st
    have hg : getPasteboard (some "general") = PBName.general := by decide
    have hn : getPasteboard none = PBName.general := rfl
    unfold runAdapter
    simp only [hg, hn]

/-- C8 witness: an arbitrary other name resolves to a custom pasteboard. -/
theorem pasteboard_resolution_total_witness :
    getPasteboard (some "com.test.pb") = PBName.custom "com.test.pb" :=
  pasteboard_resolution_total.2.2.2.2.2.2.1 "com.test.pb"
    (by decide) (by decide) (by decide) (by decide) (by decide)

/-- C1: every adapter write command clears the pasteboard before setting its
new representations, so a successful write leaves exactly the representations
it set, independent of the prior state; in particular writing text and then
an image to the same pasteboard leaves the plain-text type absent. -/
theorem writes_replace_whole_item :
    (∀ stdin pb o pb2, cmdWriteText stdin pb = CmdResult.ok o pb2 →
      ∃ t, utf8Decode stdin = some t ∧ pb2 = [(typeString, PBValue.str t)])
    ∧ (∀ dec enc fmt stdin pb o pb2, cmdWriteImage dec enc fmt stdin pb = CmdResult.ok o pb2 →
      ∀ ty, ty ∈ typesOf pb2 → ty = typeTiff ∨ ty = typePng)
    ∧ (∀ t b64 stdin pb o pb2, cmdWrite (some t) b64 stdin pb = CmdResult.ok o pb2 →
      ∃ v, pb2 = [(t, v)])
    ∧ (∀ dec enc fmt stdinT stdinI pb o1 pb1 o2 pb2,
      cmdWriteText stdinT pb = CmdResult.ok o1 pb1 →
      cmdWriteImage dec enc fmt stdinI pb1 = CmdResult.ok o2 pb2 →
      typeString ∉ typesOf pb2) := by
  have hText : ∀ stdin pb o pb2, cmdWriteText stdin pb = CmdResult.ok o pb2 →
      ∃ t, utf8Decode stdin = some t ∧ pb2 = [(typeString, PBValue.str t)] := by
    intro stdin pb o pb2 h
    unfold cmdWriteText at h
    split at h
    · exact CmdResult.noConfusion h
    · injection h with h1 h2
      refine ⟨_, by assumption, ?_⟩
      simp only [setString, clearContents, List.nil_append] at h2
      exact h2.symm
  have hImg : ∀ dec enc fmt stdin pb o pb2,
      cmdWriteImage dec enc fmt stdin pb = CmdResult.ok o pb2 →
      ∀ ty, ty ∈ typesOf pb2 → ty = typeTiff ∨ ty = typePng := by
    intro dec enc fmt stdin pb o pb2 h
    unfold cmdWriteImage at h
    repeat' split at h
    all_goals
      first
      | exact CmdResult.noConfusion h
      | (injection h with h1 h2
         intro ty hty
         rw [← h2] at hty
         first
         | (simp only [typesOf, setData, clearContents, List.nil_append, List.map_append,
              List.map_cons, List.map_nil, List.mem_append, List.mem_cons,
              List.mem_singleton, List.not_mem_nil, or_false, false_or] at hty
            tauto)
         | simp only [typesOf, setData, clearContents, List.nil_append, List.map_append,
             List.map_cons, List.map_nil, List.mem_append, List.mem_cons,
             List.mem_singleton, List.not_mem_nil, or_false, false_or] at hty)
  have hW : ∀ t b64 stdin pb o pb2, cmdWrite (some t) b64 stdin pb = CmdResult.ok o pb2 →
      ∃ v, pb2 = [(t, v)] := by
    intro t b64 stdin pb o pb2 h
    simp only [cmdWrite] at h
    repeat' split at h
    all_goals
      first
      | exact CmdResult.noConfusion h
      | (injection h with h1 h2
         simp only [setData, setString, clearContents, List.nil_append] at h2
         exact ⟨_, h2.symm⟩)
  refine ⟨hText, hImg, hW, ?_⟩
  intro dec enc fmt stdinT stdinI pb o1 pb1 o2 pb2 hT hI hmem
  rcases hImg dec enc fmt stdinI pb1 o2 pb2 hI typeString hmem with h | h
  · exact absurd h (by decide)
  · exact absurd h (by decide)

/-- C1 witness: writing text then an image leaves the plain-text type absent
from the type list. -/
theorem writes_replace_whole_item_witness :
    typeString ∉ typesOf [(typeTiff, PBValue.data [1]), (typePng, PBValue.data [2])] :=
  writes_replace_whole_item.2.2.2
    (fun l => if l = [7] then some (Img.mk 1) else none)
    (fun _ ft => if ft = FileType.tiff then some [1] else some [2])
    "png" (utf8Encode "hi") (utf8Encode "Bw==") [] "" [(typeString, PBValue.str "hi")] ""
    [(typeTiff, PBValue.data [1]), (typePng, PBValue.data [2])]
    (by decide) (by decide)

/-- C3: a successful write-image whose stdin decodes (base64, then bitmap) to
an image leaves a TIFF representation of that image on the pasteboard, and a
PNG representation in addition exactly when the requested format is "png"
(given that the OS bitmap encoder produces both representations). -/
theorem write_image_always_tiff_png_iff_format
    (dec : List Nat → Option Img) (enc : Img → FileType → Option (List Nat))
    (fmt : String) (stdin : List Nat) (pb : Pasteboard)
    (s : String) (d : List Nat) (img : Img) (td pd : List Nat)
    (hs : utf8Decode stdin = some s)
    (hb : b64Decode (trimWS s) = some d)
    (hd : dec d = some img)
    (ht : enc img FileType.tiff = some td)
    (hp : enc img FileType.png = some pd) :
    ∃ pb2, cmdWriteImage dec enc fmt stdin pb = CmdResult.ok "" pb2
      ∧ (typeTiff, PBValue.data td) ∈ pb2
      ∧ (typePng ∈ typesOf pb2 ↔ fmt = "png") := by
  unfold cmdWriteImage
  simp only [hs, Option.map_some', hb, hd, ht, hp]
  by_cases hf : fmt = "png"
  · rw [if_pos hf]
    refine ⟨_, rfl, ?_, ?_⟩
    · simp [setData, clearContents]
    · simp only [setData, clearContents, typesOf, List.nil_append, List.map_append,
        List.map_cons, List.map_nil, List.mem_append, List.mem_cons, List.not_mem_nil]
      constructor
      · intro _
        exact hf
      · intro _
        simp
  · rw [if_neg hf]
    refine ⟨_, rfl, ?_, ?_⟩
    · simp [setData, clearContents]
    · simp only [setData, clearContents, typesOf, List.nil_append,
        List.map_cons, List.map_nil, List.mem_cons, List.not_mem_nil]
      constructor
      · intro hmem
        rcases hmem with h | h
        · exact absurd h (by decide)
        · exact absurd h (by simp)
      · intro h
        exact absurd h hf

/-- C3 witness: a concrete write-image with format "png" leaves both the TIFF
and PNG representations. -/
theorem write_image_always_tiff_png_iff_format_witness :
    ∃ pb2, cmdWriteImage (fun l => if l = [7] then some (Img.mk 1) else none)
        (fun _ ft => if ft = FileType.tiff then some [1] else some [2])
        "png" (utf8Encode "Bw==") [] = CmdResult.ok "" pb2
      ∧ (typeTiff, PBValue.data [1]) ∈ pb2
      ∧ (typePng ∈ typesOf pb2 ↔ "png" = "png") :=
  write_image_always_tiff_png_iff_format
    (fun l => if l = [7] then some (Img.mk 1) else none)
    (fun _ ft => if ft = FileType.tiff then some [1] else some [2])
    "png" (utf8Encode "Bw==") [] "Bw==" [7] (Img.mk 1) [1] [2]
    (by decide) (by decide) (by decide) (by decide) (by decide)

/-- C4: read-image tries the TIFF representation first and the PNG
representation second as independent candidates (a TIFF payload that fails to
decode falls through to PNG), re-encodes the chosen image into the requested
output format and emits it base64 on stdout, and fails with "No image on
pasteboard" (exit 1, stderr) when neither candidate decodes. -/
theorem read_image_tiff_first_png_fallback
    (dec : List Nat → Option Img) (enc : Img → FileType → Option (List Nat))
    (fmt : String) (pb : Pasteboard) :
    (∀ td img out, dataForType pb typeTiff = some td → dec td = some img →
      enc img (if fmt = "tiff" then FileType.tiff else FileType.png) = some out →
      cmdReadImage dec enc fmt pb = CmdResult.ok (base64Encode out) pb)
    ∧ (∀ pd img out,
      (dataForType pb typeTiff = none
        ∨ ∃ td, dataForType pb typeTiff = some td ∧ dec td = none) →
      dataForType pb typePng = some pd → dec pd = some img →
      enc img (if fmt = "tiff" then FileType.tiff else FileType.png) = some out →
      cmdReadImage dec enc fmt pb = CmdResult.ok (base64Encode out) pb)
    ∧ ((dataForType pb typeTiff = none
        ∨ ∃ td, dataForType pb typeTiff = some td ∧ dec td = none) →
      (dataForType pb typePng = none
        ∨ ∃ pd, dataForType pb typePng = some pd ∧ dec pd = none) →
      cmdReadImage dec enc fmt pb = CmdResult.err "No image on pasteboard" pb) := by
  refine ⟨?_, ?_, ?_⟩
  · intro td img out hdata hdec henc
    unfold cmdReadImage
    simp only [hdata, hdec, henc]
  · intro pd img out htiff hdata hdec henc
    unfold cmdReadImage
    rcases htiff with h | ⟨td, hdt, hdd⟩
    · simp only [h, hdata, hdec, henc]
    · simp only [hdt, hdd, hdata, hdec, henc]
  · intro htiff hpng
    unfold cmdReadImage
    rcases htiff with h | ⟨td, hdt, hdd⟩
    · rcases hpng with h2 | ⟨pd, hdp, hpd⟩
      · simp only [h, h2]
      · simp only [h, hdp, hpd]
    · rcases hpng with h2 | ⟨pd, hdp, hpd⟩
      · simp only [hdt, hdd, h2]
      · simp only [hdt, hdd, hdp, hpd]

/-- C4 witness: a pasteboard whose TIFF payload does not decode falls through
to the PNG payload, which is re-encoded into the requested "png" format. -/
theorem read_image_tiff_first_png_fallback_witness :
    cmdReadImage (fun l => if l = [9] then some (Img.mk 1) else none)
      (fun _ _ => some [3]) "png"
      [(typeTiff, PBValue.data [8]), (typePng, PBValue.data [9])]
      = CmdResult.ok (base64Encode [3])
        [(typeTiff, PBValue.data [8]), (typePng, PBValue.data [9])] :=
  (read_image_tiff_first_png_fallback
    (fun l => if l = [9] then some (Img.mk 1) else none)
    (fun _ _ => some [3]) "png"
    [(typeTiff, PBValue.data [8]), (typePng, PBValue.data [9])]).2.1
    [9] (Img.mk 1) [3]
    (Or.inr ⟨[8], by decide, by decide⟩) (by decide) (by decide) (by decide)

/-- C10: the adapter never validates `--format`: any format other than "tiff"
makes read-image re-encode as PNG and exit 0, any format other than "png"
makes write-image write only the TIFF representation and exit 0, and the
argument parser accepts every `--format` value. -/
theorem format_never_validated :
    (∀ dec enc (f : String) pb td img out, f ≠ "tiff" →
      dataForType pb typeTiff = some td → dec td = some img →
      enc img FileType.png = some out →
      cmdReadImage dec enc f pb = CmdResult.ok (base64Encode out) pb)
    ∧ (∀ dec enc (f : String) stdin pb s d img td, f ≠ "png" →
      utf8Decode stdin = some s → b64Decode (trimWS s) = some d →
      dec d = some img → enc img FileType.tiff = some td →
      cmdWriteImage dec enc f stdin pb = CmdResult.ok "" [(typeTiff, PBValue.data td)])
    ∧ (∀ f : String, parseArgs ["pbhelper", "read-image", "--format", f]
      = Except.ok (Args.mk "read-image" none none f false)) := by
  refine ⟨?_, ?_, ?_⟩
  · intro dec enc f pb td img out hf hdata hdec henc
    unfold cmdReadImage
    simp only [hdata, hdec, if_neg hf, henc]
  · intro dec enc f stdin pb s d img td hf hs hb hd ht
    unfold cmdWriteImage
    simp only [hs, Option.map_some', hb, hd, ht, if_neg hf]
    simp [setData, clearContents]
  · intro f
    rfl

/-- C10 witness: format "bmp" is accepted by the parser, read as PNG, and
written as TIFF only. -/
theorem format_never_validated_witness :
    parseArgs ["pbhelper", "read-image", "--format", "bmp"]
      = Except.ok (Args.mk "read-image" none none "bmp" false)
    ∧ cmdWriteImage (fun l => if l = [7] then some (Img.mk 1) else none)
        (fun _ ft => if ft = FileType.tiff then some [1] else some [2])
        "bmp" (utf8Encode "Bw==") []
      = CmdResult.ok "" [(typeTiff, PBValue.data [1])] :=
  ⟨format_never_validated.2.2 "bmp",
    format_never_validated.2.1
      (fun l => if l = [7] then some (Img.mk 1) else none)
      (fun _ ft => if ft = FileType.tiff then some [1] else some [2])
      "bmp" (utf8Encode "Bw==") [] "Bw==" [7] (Img.mk 1) [1]
      (by decide) (by decide) (by decide) (by decide) (by decide)⟩

/-- C6: for every bridge operation, a nonzero adapter exit code yields a
rejection whose message is the trimmed stderr, or a generic message carrying
the exit code when the trimmed stderr is empty; a zero exit code never
rejects on account of stderr and returns the decoded stdout (JSON-parsed for
list-types, raw text otherwise). -/
theorem bridge_maps_exit_code_and_stderr (r : ExecResult) :
    (r.exitCode ≠ 0 → trimWS r.stderr ≠ "" →
      Bridge.listTypes r = Except.error (trimWS r.stderr)
      ∧ Bridge.readText r = Except.error (trimWS r.stderr)
      ∧ Bridge.readImage r = Except.error (trimWS r.stderr)
      ∧ Bridge.readData r = Except.error (trimWS r.stderr)
      ∧ Bridge.writeText r = Except.error (trimWS r.stderr))
    ∧ (r.exitCode ≠ 0 → trimWS r.stderr = "" →
      Bridge.listTypes r = Except.error ("pbhelper exited with code " ++ toString r.exitCode)
      ∧ Bridge.readText r = Except.error ("pbhelper exited with code " ++ toString r.exitCode))
    ∧ (r.exitCode = 0 →
      Bridge.readText r = Except.ok r.stdout
      ∧ Bridge.readImage r = Except.ok r.stdout
      ∧ Bridge.readData r = Except.ok r.stdout
      ∧ Bridge.writeText r = Except.ok ()
      ∧ (∀ e, Bridge.listTypes (ExecResult.mk r.stdout e 0) = Bridge.listTypes r)
      ∧ (∀ l, parseJsonStrings r.stdout = some l → Bridge.listTypes r = Except.ok l)) := by
  refine ⟨?_, ?_, ?_⟩
  · intro hc hs
    have hcheck : checkResult r = some (trimWS r.stderr) := by
      unfold checkResult
      rw [if_pos hc, if_neg hs]
    unfold Bridge.listTypes Bridge.readText Bridge.readImage Bridge.readData Bridge.writeText
    rw [hcheck]
    exact ⟨rfl, rfl, rfl, rfl, rfl⟩
  · intro hc hs
    have hcheck : checkResult r
        = some ("pbhelper exited with code " ++ toString r.exitCode) := by
      unfold checkResult
      rw [if_pos hc, if_pos hs]
    unfold Bridge.listTypes Bridge.readText
    rw [hcheck]
    exact ⟨rfl, rfl⟩
  · intro hc
    have hcheck : checkResult r = none := by
      unfold checkResult
      rw [if_neg (by omega)]
    refine ⟨?_, ?_, ?_, ?_, ?_, ?_⟩
    · unfold Bridge.readText
      rw [hcheck]
    · unfold Bridge.readImage
      rw [hcheck]
    · unfold Bridge.readData
      rw [hcheck]
    · unfold Bridge.writeText
      rw [hcheck]
    · intro e
      have h1 : checkResult (ExecResult.mk r.stdout e 0) = none := by
        unfold checkResult
        rw [if_neg (by simp)]
      unfold Bridge.listTypes
      rw [hcheck, h1]
    · intro l hl
      unfold Bridge.listTypes
      rw [hcheck, hl]

/-- C6 witness: a nonzero exit with whitespace-padded stderr rejects with the
trimmed message, and a zero exit returns stdout regardless of stderr. -/
theorem bridge_maps_exit_code_and_stderr_witness :
    Bridge.readText (ExecResult.mk "out" "  boom \n" 1) = Except.error "boom"
    ∧ Bridge.readText (ExecResult.mk "out" "  boom \n" 0) = Except.ok "out" :=
  ⟨by
    have h := (bridge_maps_exit_code_and_stderr (ExecResult.mk "out" "  boom \n" 1)).1
      (by decide) (by decide)
    have ht : trimWS (ExecResult.mk "out" "  boom \n" 1).stderr = "boom" := by decide
    rw [ht] at h
    exact h.2.1,
  ((bridge_maps_exit_code_and_stderr (ExecResult.mk "out" "  boom \n" 0)).2.2 rfl).1⟩
